import Mathlib

/-!
Verification of the pycryptol client library (`cryptol/cryptol.py`) via a
shallow embedding in Lean.  The embedding covers the wire value codec
(`__from_value`, `__to_value`, `to_expr`), string templating (`template`),
result types (`ProofResult`, `SatResult`, `AllSatResult`) with their
constructor checks, the `sat` reply interpretation, declaration lookup
(`decl`), the `eval` reply interpretation, and the session teardown logic
(`Cryptol.exit`).  Python exceptions are modelled as an explicit error type,
raising as returning `Except.error`, and socket/process side effects as an
explicit effect trace.
-/

namespace Pycryptol

/-- The exception classes raised by `cryptol.py`: `CryptolError` and its
subclasses `CryptolServerError` / `ProverError`, the separate
`PycryptolInternalError`, and the builtin `ValueError` / `TypeError` used by
`__to_value`, `to_expr` and `template`.  Each carries its message. -/
inductive PyExc where
  | cryptolError (msg : String)
  | cryptolServerError (msg : String)
  | proverError (msg : String)
  | pycryptolInternalError (msg : String)
  | valueError (msg : String)
  | typeError (msg : String)
deriving DecidableEq, Repr

/-- The Python class of an exception, forgetting the message. -/
inductive ExcClass where
  | cryptolError
  | cryptolServerError
  | proverError
  | pycryptolInternalError
  | valueError
  | typeError
deriving DecidableEq, Repr

/-- Map an exception to its Python class. -/
def excClass : PyExc → ExcClass
  | .cryptolError _ => .cryptolError
  | .cryptolServerError _ => .cryptolServerError
  | .proverError _ => .proverError
  | .pycryptolInternalError _ => .pycryptolInternalError
  | .valueError _ => .valueError
  | .typeError _ => .typeError

/-- JSON-formatted Cryptol wire values, as dispatched on by `__from_value`
(`cryptol.py` lines 409-450): `bit`, `record` (list of name/value fields),
`tuple`, `sequence` (with its `isWord` flag), `word` (a `bitvector` object
carrying `width` and `value`), and an opaque nested `function`. -/
inductive WireVal where
  | bit (b : Bool)
  | record (fields : List (String × WireVal))
  | tuple (vals : List WireVal)
  | sequence ( isWord : Bool) (elements : List WireVal)
  | word (width : Nat) (value : Int)
  | function (handle : Nat)

/-- Local Python values handled by the codec: `None`, `bool`, `int`
(accepted by `to_expr` but not by `__to_value`), `BitVector` (an intVal
together with a size; the library invariant is `intVal < 2 ^ size`),
`tuple`, `dict` (modelled as an ordered association list) and `list`. -/
inductive PyVal where
  | pyNone
  | bool (b : Bool)
  | int (n : Int)
  | bitvector (width : Nat) (value : Nat)
  | tuple (vals : List PyVal)
  | record (fields : List (String × PyVal))
  | list (vals : List PyVal)

/-- Python truthiness of a local value, as used by `BitVector(bitlist=...)`
when `__from_value` decodes a word-flagged sequence: `None` and `False` are
falsy, numbers are truthy iff nonzero, sized containers iff nonempty. -/
def pyTruthy : PyVal → Bool
  | .pyNone => false
  | .bool b => b
  | .int n => n ≠ 0
  | .bitvector width _ => width ≠ 0
  | .tuple vals => ¬ vals.isEmpty
  | .record fields => ¬ fields.isEmpty
  | .list vals => ¬ vals.isEmpty

/-- The integer denoted by a most-significant-bit-first bit list, as stored
by `BitVector(bitlist=...)`. -/
def bitlistVal (bits : List Bool) : Nat :=
  bits.foldl (fun acc b => 2 * acc + (if b then 1 else 0)) 0

mutual

/-- `_CryptolModule.__from_value` (`cryptol.py` lines 409-450): convert a
JSON-formatted Cryptol value to a Python value.  A `bit` is returned as the
boolean itself; a `record` decodes each field; a `tuple` decodes each
component; a `sequence` with `isWord` set becomes a `BitVector` built from
the decoded elements as a bitlist, and otherwise a list of decoded
elements; a `word` of width 0 becomes `None` and otherwise a `BitVector`
of that width holding `value % (2 ** width)`; a nested `function` becomes
`None`. -/
def from_value : WireVal → PyVal
  | .bit b => .bool b
  | .record fields => .record (from_value_fields fields)
  | .tuple vals => .tuple (from_value_list vals)
  | .sequence true elements =>
      .bitvector elements.length
        (bitlistVal ((from_value_list elements).map pyTruthy))
  | .sequence false elements => .list (from_value_list elements)
  | .word width value =>
      if width = 0 then .pyNone
      else .bitvector width ((value % ((2 : Int) ^ width)).toNat)
  | .function _ => .pyNone

/-- Elementwise `__from_value` over the elements of a wire tuple or
sequence. -/
def from_value_list : List WireVal → List PyVal
  | [] => []
  | v :: vs => from_value v :: from_value_list vs

/-- Fieldwise `__from_value` over the fields of a wire record. -/
def from_value_fields : List (String × WireVal) → List (String × PyVal)
  | [] => []
  | (k, v) :: fs => (k, from_value v) :: from_value_fields fs

end

mutual

/-- `_CryptolModule.__to_value` (`cryptol.py` lines 486-513): convert a
Python value to a JSON-formatted Cryptol value.  Booleans become `bit`,
dicts become `record`, tuples become `tuple`, lists become a `sequence`
with `isWord` false, `BitVector`s become `word` carrying their length and
integer value; anything else (here `None` and `int`) raises
`ValueError('Unable to convert Python value into Cryptol value ...')`. -/
def to_value : PyVal → Except PyExc WireVal
  | .bool b => .ok (.bit b)
  | .record fields => do
      let fs ← to_value_fields fields
      .ok (.record fs)
  | .tuple vals => do
      let vs ← to_value_list vals
      .ok (.tuple vs)
  | .list vals => do
      let vs ← to_value_list vals
      .ok (.sequence false vs)
  | .bitvector width value => .ok (.word width (value : Int))
  | _ => .error (.valueError "Unable to convert Python value into Cryptol value")

/-- Elementwise `__to_value` over a tuple or list. -/
def to_value_list : List PyVal → Except PyExc (List WireVal)
  | [] => .ok []
  | v :: vs => do
      let w ← to_value v
      let ws ← to_value_list vs
      .ok (w :: ws)

/-- Fieldwise `__to_value` over a dict's items. -/
def to_value_fields : List (String × PyVal) → Except PyExc (List (String × WireVal))
  | [] => .ok []
  | (k, v) :: fs => do
      let w ← to_value v
      let ws ← to_value_fields fs
      .ok ((k, w) :: ws)

end

mutual

/-- Is a local value representable in the sense of the codec round-trip:
a boolean, a `BitVector` of width at least 1 (whose value satisfies the
`BitVector` invariant `value < 2 ^ width`), or a tuple, string-keyed
record, or (non-word) list of representable values? -/
def representable : PyVal → Bool
  | .bool _ => true
  | .bitvector width value => 1 ≤ width && value < 2 ^ width
  | .tuple vals => representable_list vals
  | .record fields => representable_fields fields
  | .list vals => representable_list vals
  | _ => false

/-- All elements representable. -/
def representable_list : List PyVal → Bool
  | [] => true
  | v :: vs => representable v && representable_list vs

/-- All field values representable. -/
def representable_fields : List (String × PyVal) → Bool
  | [] => true
  | (_, v) :: fs => representable v && representable_fields fs

end

mutual

/-- `_CryptolModule.to_expr` (`cryptol.py` lines 751-780): render a Python
value as Cryptol source text.  Booleans render as `str` does (`True` /
`False`), ints as decimal literals, dicts as `{k = e, ...}`, tuples as
`(e1, ...)`, lists as `[e1, ...]`, and `BitVector`s as `value : [width]`;
anything else (here `None`) raises `TypeError('Unable to convert Python
value into Cryptol expression: ...')`. -/
def to_expr : PyVal → Except PyExc String
  | .bool b => .ok (if b then "True" else "False")
  | .int n => .ok (toString n)
  | .record fields => do
      let parts ← to_expr_fields fields
      .ok ("\x7b" ++ String.intercalate ", " parts ++ "\x7d")
  | .tuple vals => do
      let parts ← to_expr_list vals
      .ok ("(" ++ String.intercalate ", " parts ++ ")")
  | .list vals => do
      let parts ← to_expr_list vals
      .ok ("[" ++ String.intercalate ", " parts ++ "]")
  | .bitvector width value => .ok (toString value ++ " : [" ++ toString width ++ "]")
  | .pyNone => .error (.typeError "Unable to convert Python value into Cryptol expression")

/-- Elementwise `to_expr` over a tuple or list. -/
def to_expr_list : List PyVal → Except PyExc (List String)
  | [] => .ok []
  | v :: vs => do
      let e ← to_expr v
      let es ← to_expr_list vs
      .ok (e :: es)

/-- Fieldwise `to_expr` over a dict's items, rendering each as
`'{} = {}'.format(k, to_expr(v))`. -/
def to_expr_fields : List (String × PyVal) → Except PyExc (List String)
  | [] => .ok []
  | (k, v) :: fs => do
      let e ← to_expr v
      let es ← to_expr_fields fs
      .ok ((k ++ " = " ++ e) :: es)

end

/-- Replace the first occurrence of `target` in a character list by `r`
(the behaviour of Python's `string.replace(s, target, r, 1)`). -/
def replaceFirstAux : List Char → Char → List Char → List Char
  | [], _, _ => []
  | c :: cs, target, r => if c = target then r ++ cs else c :: replaceFirstAux cs target r

/-- Python's `string.replace(s, target, r, 1)` on strings. -/
def string_replace_first (s : String) (target : Char) (r : String) : String :=
  String.mk (replaceFirstAux s.data target r.data)

/-- `_CryptolModule.template` (`cryptol.py` lines 782-816): count the `?`
holes in the template, wrap a non-tuple argument into a 1-tuple, raise
`TypeError` when the number of arguments differs from the number of holes
(in either direction, with the two messages of the source), and otherwise
fold over the arguments, each step replacing the first remaining `?` by
the `to_expr` rendering of the argument. -/
def template (t : String) (args : PyVal) : Except PyExc String :=
  let holes := t.data.count '?'
  let argsList := match args with
    | .tuple vals => vals
    | v => [v]
  if argsList.length < holes then
    .error (.typeError "not all arguments converted during Cryptol string templating")
  else if argsList.length > holes then
    .error (.typeError "not enough arguments for Cryptol template string")
  else
    argsList.foldlM (fun result arg => do
      let e ← to_expr arg
      pure (string_replace_first result '?' e)) t

/-- `_CryptolModule.__tag_expr` (`cryptol.py` lines 386-407), up to the
point of sending: the request message `{'tag': tag, 'expr': ...}` is only
formed once `template` has succeeded, so a templating failure happens
before any request is sent. -/
def tag_expr_request (tag : String) (expr : String) (fmtargs : PyVal) :
    Except PyExc (String × String) := do
  let e ← template expr fmtargs
  .ok (tag, e)

/-- Modelled from the spec's words (§4.3 `eval`): "each placeholder is
replaced in order by the source rendering of the corresponding argument" —
the i-th `?` of the original template becomes the i-th rendering,
regardless of the renderings' contents.  Used only to compare against the
source's `template`. -/
def spec_subst : List Char → List String → List Char
  | [], _ => []
  | c :: cs, rs =>
      if c = '?' then
        match rs with
        | r :: rest => r.data ++ spec_subst cs rest
        | [] => c :: spec_subst cs []
      else c :: spec_subst cs rs

/-- `ProofResult` (`cryptol.py` lines 34-62): validity flag plus optional
counterexample tuple. -/
structure ProofResult where
  is_valid : Bool
  cex : Option (List PyVal)

/-- `ProofResult.__init__` (lines 37-42): raises `PycryptolInternalError`
when `is_valid and cex is not None`, and otherwise stores both fields. -/
def mkProofResult (is_valid : Bool) (cex : Option (List PyVal)) :
    Except PyExc ProofResult :=
  if is_valid && cex.isSome then
    .error (.pycryptolInternalError "Counterexample given for valid property")
  else .ok ⟨is_valid, cex⟩

/-- `ProofResult.has_counterexample` (lines 54-56): `cex is not None`. -/
def ProofResult.has_counterexample (r : ProofResult) : Bool :=
  r.cex.isSome

/-- `SatResult` (`cryptol.py` lines 64-92): satisfiability flag plus
optional single assignment tuple. -/
structure SatResult where
  is_sat : Bool
  args : Option (List PyVal)

/-- `SatResult.__init__` (lines 67-72): raises `PycryptolInternalError`
when `is_sat and args is None`, and otherwise stores both fields. -/
def mkSatResult (is_sat : Bool) (args : Option (List PyVal)) :
    Except PyExc SatResult :=
  if is_sat && args.isNone then
    .error (.pycryptolInternalError "No satisfying assignment given for satisfiable property")
  else .ok ⟨is_sat, args⟩

/-- `SatResult.has_assignment` (lines 84-86): `args is not None`. -/
def SatResult.has_assignment (r : SatResult) : Bool :=
  r.args.isSome

/-- `AllSatResult` (`cryptol.py` lines 94-124): satisfiability flag plus
optional list of assignment tuples. -/
structure AllSatResult where
  is_sat : Bool
  argss : Option (List (List PyVal))

/-- `AllSatResult.__init__` (lines 97-102): raises
`PycryptolInternalError` when `is_sat and argss is None`. -/
def mkAllSatResult (is_sat : Bool) (argss : Option (List (List PyVal))) :
    Except PyExc AllSatResult :=
  if is_sat && argss.isNone then
    .error (.pycryptolInternalError "No satisfying assignments given for satisfiable property")
  else .ok ⟨is_sat, argss⟩

/-- The two result shapes `sat` can return. -/
inductive SatOutcome where
  | single (r : SatResult)
  | multi (r : AllSatResult)

/-- `_CryptolModule.sat`, branch for a well-formed `sat` reply
(`cryptol.py` lines 672-688): decode every assignment, then when
`sat_num == 1` return `SatResult(False, None)` for zero assignments,
`SatResult(True, argss[0])` for one, and raise `PycryptolInternalError`
for more; for any other `sat_num` (including `None`, modelled as
`Option.none`) return `AllSatResult(False, None)` for zero assignments and
`AllSatResult(True, argss)` otherwise. -/
def sat_interp (sat_num : Option Int) (assignments : List (List WireVal)) :
    Except PyExc SatOutcome :=
  let argss := assignments.map (fun assignment => assignment.map from_value)
  if sat_num = some 1 then
    match argss with
    | [] => (mkSatResult false none).map SatOutcome.single
    | [args] => (mkSatResult true (some args)).map SatOutcome.single
    | _ => .error (.pycryptolInternalError "Multiple satisfying assignments with sat_num != 1")
  else
    match argss with
    | [] => (mkAllSatResult false none).map SatOutcome.multi
    | a :: rest => (mkAllSatResult true (some (a :: rest))).map SatOutcome.multi

/-- `_CryptolModule.decl` (`cryptol.py` lines 515-534): look the name up in
the `__decls` table populated once at load time (modelled as an
association list); a hit returns the cached value without re-evaluating,
a miss raises `CryptolError('Value not in scope: ...')`. -/
def decl (decls : List (String × PyVal)) (name : String) : Except PyExc PyVal :=
  match decls.lookup name with
  | some v => .ok v
  | none => .error (.cryptolError ("Value not in scope: " ++ name))

/-- The reply shapes `eval` dispatches on (`cryptol.py` lines 552-562). -/
inductive EvalReply where
  | value (v : WireVal)
  | funValue (handle : Nat)
  | interactiveError (pp : String)
  | otherTag (tag : String)

/-- What `eval` produces on success: a decoded value or a function
handle. -/
inductive EvalOutcome where
  | val (v : PyVal)
  | funHandle (handle : Nat)

/-- `_CryptolModule.eval`, reply interpretation (`cryptol.py` lines
552-562): a `value` reply is decoded with `__from_value`, a `funValue`
reply becomes a callable on its handle, an `interactiveError` reply raises
`CryptolError` with the server's pretty-printed diagnostic, anything else
raises `PycryptolInternalError`. -/
def eval_interp : EvalReply → Except PyExc EvalOutcome
  | .value v => .ok (.val (from_value v))
  | .funValue h => .ok (.funHandle h)
  | .interactiveError pp => .error (.cryptolError pp)
  | .otherTag _ =>
      .error (.pycryptolInternalError "Cryptol evaluation returned a non-value message")

/-- The socket state of one `_CryptolModule`: whether `self.__req` is
closed. -/
structure ModuleState where
  reqClosed : Bool
deriving DecidableEq, Repr

/-- `_CryptolModule.exit` (`cryptol.py` lines 724-737): when the request
socket is still open, send a non-blocking exit notice (ignoring
`zmq.error.Again`) and close it; otherwise do nothing.  The boolean
reports whether the notice/close happened. -/
def moduleExit (m : ModuleState) : ModuleState × Bool :=
  if m.reqClosed then (m, false) else (⟨true⟩, true)

/-- Observable side effects of `Cryptol.exit`. -/
inductive ExitEffect where
  | moduleExitNotice (index : Nat)
  | controlExitNotice
  | closeMainReq
  | destroyCtx
  | terminateServer
deriving DecidableEq, Repr

/-- The loop over `self.__loaded_modules` in `Cryptol.exit` (lines
205-208): each entry is a weak reference, `none` modelling one whose
module has already been collected (`mod_ref()` returned `None`, skipped),
`some m` a still-live module on which `exit` is called. -/
def exitModules : Nat → List (Option ModuleState) →
    List (Option ModuleState) × List ExitEffect
  | _, [] => ([], [])
  | i, none :: rest =>
      let (ms, es) := exitModules (i + 1) rest
      (none :: ms, es)
  | i, some m :: rest =>
      let (m2, sent) := moduleExit m
      let (ms, es) := exitModules (i + 1) rest
      (some m2 :: ms, (if sent then [ExitEffect.moduleExitNotice i] else []) ++ es)

/-- The state of a `Cryptol` session: the weakly-tracked loaded modules,
whether the control socket `self.__main_req` is closed, whether the zmq
context is closed, whether the session owns a server process
(`self.__server` is a `Popen` rather than `False`), and — when owned —
whether that process is still running (`poll()` returns `None` exactly
when it is). -/
structure SessionState where
  loadedModules : List (Option ModuleState)
  mainReqClosed : Bool
  ctxClosed : Bool
  serverOwned : Bool
  serverRunning : Bool
deriving DecidableEq, Repr

/-- `Cryptol.exit` (`cryptol.py` lines 198-216): exit every still-live
module; if the control socket is open *and* a server is owned, send a
non-blocking exit notice and close it; if the zmq context is open, destroy
it (which closes every socket of the context, the control socket
included); finally, `if self.__server and self.__server.poll() is not
None` — i.e. only when the owned server process has already exited —
sleep briefly and call `terminate()` on it. -/
def cryptol_exit (s : SessionState) : SessionState × List ExitEffect :=
  let (mods, es1) := exitModules 0 s.loadedModules
  let (mainClosed1, es2) :=
    if !s.mainReqClosed && s.serverOwned then
      (true, [ExitEffect.controlExitNotice, ExitEffect.closeMainReq])
    else (s.mainReqClosed, [])
  let (ctxClosed2, mainClosed2, es3) :=
    if !s.ctxClosed then (true, true, [ExitEffect.destroyCtx])
    else (s.ctxClosed, mainClosed1, [])
  let es4 :=
    if s.serverOwned && !s.serverRunning then [ExitEffect.terminateServer] else []
  ({ loadedModules := mods
     mainReqClosed := mainClosed2
     ctxClosed := ctxClosed2
     serverOwned := s.serverOwned
     serverRunning := s.serverRunning }, es1 ++ es2 ++ es3 ++ es4)

/-- C8: for every magnitude `m`, decoding a wire `word` of width 0 yields
the absent value `None`, and nothing else, regardless of the magnitude. -/
theorem C8_width_zero_word (m : Int) : from_value (.word 0 m) = .pyNone := by
  simp [from_value]

/-- C9: for every width `w ≥ 1` and magnitudes `m1 ≡ m2 (mod 2 ^ w)`,
decoding a wire `word` of width `w` and value `m1` yields the same local
bit-vector as decoding one of width `w` and value `m2` — magnitudes are
reduced modulo `2 ^ width` on decode. -/
theorem C9_word_mod_reduction (w : Nat) (m1 m2 : Int) (hw : 1 ≤ w)
    (hmod : m1 % ((2 : Int) ^ w) = m2 % ((2 : Int) ^ w)) :
    from_value (.word w m1) = from_value (.word w m2) := by
  have hw0 : ¬ w = 0 := by omega
  simp [from_value, hw0, hmod]

/-- Witness for C9 at width 4 and magnitudes 19 and 3 (the spec's own
instance): `19 % 16 = 3 % 16`, so both decode alike. -/
theorem C9_witness : from_value (.word 4 19) = from_value (.word 4 3) :=
  C9_word_mod_reduction 4 19 3 (by decide) (by decide)

/-- C10: a non-tuple argument to `template` is implicitly wrapped in a
1-tuple before the placeholder/argument count comparison, so
`template t v` behaves exactly as `template t (v,)` for every non-tuple
`v`. -/
theorem C10_template_wraps_single_arg (t : String) (v : PyVal)
    (h : ∀ vals, v ≠ .tuple vals) :
    template t v = template t (.tuple [v]) := by
  cases v
  case tuple vals => exact absurd rfl (h vals)
  all_goals rfl

/-- Witness for C10 at `template "?" True`. -/
theorem C10_witness :
    template "?" (.bool true) = template "?" (.tuple [.bool true]) :=
  C10_template_wraps_single_arg "?" (.bool true) (fun _ h => PyVal.noConfusion h)

/-- C1 is false as stated: `ProofResult(False, None)` is accepted by the
constructor (no `PycryptolInternalError`), yet on that instance
`has_counterexample()` is `False` while `not is_valid()` is `True`, so the
claimed invariant `has_counterexample() == !is_valid()` fails and the
constructor did not reject the violating argument pair. -/
theorem C1_counterexample :
    mkProofResult false none = Except.ok ⟨false, none⟩ ∧
    (ProofResult.mk false none).has_counterexample ≠
      (!(ProofResult.mk false none).is_valid) :=
  ⟨rfl, by decide⟩

/-- C1 amended: construction raises `PycryptolInternalError` exactly when
`is_valid` holds and a counterexample is given; hence every constructed
instance satisfies only the forward direction — `has_counterexample()`
implies `not is_valid()`. -/
theorem C1_amended_invariant (is_valid : Bool) (cex : Option (List PyVal)) :
    (mkProofResult is_valid cex =
        Except.error (.pycryptolInternalError "Counterexample given for valid property")
      ↔ is_valid = true ∧ cex.isSome = true) ∧
    (∀ r, mkProofResult is_valid cex = Except.ok r →
      r.has_counterexample = true → r.is_valid = false) := by
  constructor
  · cases is_valid <;> cases cex <;> simp [mkProofResult]
  · intro r hr hc
    cases is_valid <;> cases cex <;>
      simp only [mkProofResult, Bool.false_and, Bool.true_and, Option.isSome,
        Bool.true_eq_false, if_false, if_true, reduceIte] at hr <;>
      first
        | (cases hr; simp [ProofResult.has_counterexample] at hc ⊢)
        | exact Except.noConfusion hr

/-- Witness for C1 (amended): `ProofResult(False, (True,))` is constructed
and is not valid. -/
theorem C1_witness :
    mkProofResult false (some [PyVal.bool true]) =
      Except.ok ⟨false, some [PyVal.bool true]⟩ ∧
    (ProofResult.mk false (some [PyVal.bool true])).is_valid = false :=
  ⟨rfl, (C1_amended_invariant false (some [PyVal.bool true])).2
    ⟨false, some [PyVal.bool true]⟩ rfl rfl⟩

/-- C2 is false as stated: `SatResult(False, ())` — unsat together with an
assignment — is accepted by the constructor, yet on that instance
`has_assignment()` is `True` while `is_sat()` is `False`, so the claimed
invariant `has_assignment() == is_sat()` fails and the constructor did not
reject the violating argument pair. -/
theorem C2_counterexample :
    mkSatResult false (some []) = Except.ok ⟨false, some []⟩ ∧
    (SatResult.mk false (some [])).has_assignment ≠
      (SatResult.mk false (some [])).is_sat :=
  ⟨rfl, by decide⟩

/-- C2 amended: construction raises `PycryptolInternalError` exactly when
`is_sat` holds and no assignment is given; hence every constructed
instance satisfies only the forward direction — `is_sat()` implies
`has_assignment()`. -/
theorem C2_amended_invariant (is_sat : Bool) (args : Option (List PyVal)) :
    (mkSatResult is_sat args =
        Except.error (.pycryptolInternalError "No satisfying assignment given for satisfiable property")
      ↔ is_sat = true ∧ args.isNone = true) ∧
    (∀ r, mkSatResult is_sat args = Except.ok r →
      r.is_sat = true → r.has_assignment = true) := by
  constructor
  · cases is_sat <;> cases args <;> simp [mkSatResult]
  · intro r hr hs
    cases is_sat <;> cases args <;>
      simp only [mkSatResult, Bool.false_and, Bool.true_and, Option.isNone,
        reduceIte] at hr <;>
      first
        | (cases hr; simp [SatResult.has_assignment] at hs ⊢)
        | exact Except.noConfusion hr

/-- Witness for C2 (amended): `SatResult(True, (True,))` is constructed and
has an assignment. -/
theorem C2_witness :
    mkSatResult true (some [PyVal.bool true]) =
      Except.ok ⟨true, some [PyVal.bool true]⟩ ∧
    (SatResult.mk true (some [PyVal.bool true])).has_assignment = true :=
  ⟨rfl, (C2_amended_invariant true (some [PyVal.bool true])).2
    ⟨true, some [PyVal.bool true]⟩ rfl rfl⟩

/-- C6 is false in its "distinct from the other error classes" part: the
lookup miss in `decl` raises a plain `CryptolError` — exactly the same
exception class that `eval` raises for a server-side `interactiveError` —
so the lookup-miss condition is distinguished only by its message, not as
a distinct error class. -/
theorem C6_counterexample :
    decl [] "foo" = Except.error (.cryptolError "Value not in scope: foo") ∧
    eval_interp (.interactiveError "parse error") =
      Except.error (.cryptolError "parse error") ∧
    excClass (.cryptolError "Value not in scope: foo") =
      excClass (.cryptolError "parse error") :=
  ⟨rfl, rfl, rfl⟩

/-- C6 amended: for every name absent from the lookup table, `decl` raises
`CryptolError('Value not in scope: <name>')` (the spec's `NotInScope`
condition, realized as the shared `CryptolError` class); for every name
present it returns the cached value by pure table lookup, without
re-evaluating anything. -/
theorem C6_decl_lookup (decls : List (String × PyVal)) (name : String) :
    (decls.lookup name = none →
      decl decls name =
        Except.error (.cryptolError ("Value not in scope: " ++ name))) ∧
    (∀ v, decls.lookup name = some v → decl decls name = Except.ok v) := by
  constructor
  · intro h
    simp [decl, h]
  · intro v h
    simp [decl, h]

/-- Witness for C6 (amended): a one-entry table returns its cached value. -/
theorem C6_witness :
    decl [("x", PyVal.bool true)] "x" = Except.ok (PyVal.bool true) :=
  (C6_decl_lookup [("x", PyVal.bool true)] "x").2 (PyVal.bool true) rfl

/-- C4: the terminate guard of `Cryptol.exit` is inverted.  On a session
owning a *still-running* server process (`poll()` returns `None`), `exit`
sends the exit notice, closes the control socket and destroys the context
but never calls `terminate()`; `terminate()` is reached only when the
owned server has *already exited*.  The claim (and the spec) say the owned
server process is terminated. -/
theorem C4_exit_terminate_inverted :
    (cryptol_exit ⟨[], false, false, true, true⟩).2 =
      [ExitEffect.controlExitNotice, ExitEffect.closeMainReq, ExitEffect.destroyCtx] ∧
    ExitEffect.terminateServer ∉ (cryptol_exit ⟨[], false, false, true, true⟩).2 ∧
    ExitEffect.terminateServer ∈ (cryptol_exit ⟨[], false, false, true, false⟩).2 :=
  ⟨rfl, by decide, by decide⟩

/-- C5: on a well-formed `sat` reply, `sat` with `sat_num == 1` returns an
unsatisfiable `SatResult` for zero assignments and a satisfiable
`SatResult` holding the single decoded witness for one assignment, and
raises `PycryptolInternalError` for more than one; every other `sat_num`
(including `None`) yields an `AllSatResult`. -/
theorem C5_sat_result_shape (sat_num : Option Int)
    (assignments : List (List WireVal)) :
    (sat_num = some 1 → assignments = [] →
      sat_interp sat_num assignments = Except.ok (.single ⟨false, none⟩)) ∧
    (sat_num = some 1 → ∀ a, assignments = [a] →
      sat_interp sat_num assignments =
        Except.ok (.single ⟨true, some (a.map from_value)⟩)) ∧
    (sat_num = some 1 → 2 ≤ assignments.length →
      sat_interp sat_num assignments =
        Except.error
          (.pycryptolInternalError "Multiple satisfying assignments with sat_num != 1")) ∧
    (sat_num ≠ some 1 → ∃ r, sat_interp sat_num assignments = Except.ok (.multi r)) := by
  refine ⟨?_, ?_, ?_, ?_⟩
  · rintro rfl rfl
    rfl
  · rintro rfl a rfl
    rfl
  · rintro rfl hlen
    match assignments, hlen with
    | a :: b :: rest, _ => rfl
  · intro h
    cases assignments with
    | nil => exact ⟨⟨false, none⟩, by simp [sat_interp, h]; rfl⟩
    | cons a rest =>
        refine ⟨⟨true, some ((a :: rest).map (fun x => x.map from_value))⟩, ?_⟩
        simp [sat_interp, h, mkAllSatResult]
        rfl

/-- Witness for C5: a single returned assignment with `sat_num = 1`
becomes a satisfiable `SatResult` carrying the decoded witness. -/
theorem C5_witness :
    sat_interp (some 1) [[WireVal.bit true]] =
      Except.ok (.single ⟨true, some [PyVal.bool true]⟩) :=
  (C5_sat_result_shape (some 1) [[WireVal.bit true]]).2.1 rfl [WireVal.bit true] rfl

mutual

/-- Round-trip of the codec on a single representable value: encoding
succeeds and decoding the result restores the value. -/
theorem round_trip_val : (v : PyVal) → representable v = true →
    ∃ w, to_value v = Except.ok w ∧ from_value w = v
  | .bool b, _ => ⟨.bit b, rfl, rfl⟩
  | .bitvector w x, h => by
      have h' : 1 ≤ w ∧ x < 2 ^ w := by simpa [representable] using h
      refine ⟨.word w x, rfl, ?_⟩
      have hw0 : ¬ w = 0 := by omega
      have hx : (x : Int) % ((2 : Int) ^ w) = (x : Int) := by
        refine Int.emod_eq_of_lt (by positivity) ?_
        have hcast : ((2 ^ w : Nat) : Int) = (2 : Int) ^ w := by push_cast; ring
        rw [← hcast]
        exact_mod_cast h'.2
      simp [from_value, hw0, hx]
  | .tuple vs, h => by
      have h' : representable_list vs = true := by simpa [representable] using h
      obtain ⟨ws, hw1, hw2⟩ := round_trip_list vs h'
      exact ⟨.tuple ws, by simp [to_value, hw1]; rfl, by simp [from_value, hw2]⟩
  | .record fs, h => by
      have h' : representable_fields fs = true := by simpa [representable] using h
      obtain ⟨ws, hw1, hw2⟩ := round_trip_fields fs h'
      exact ⟨.record ws, by simp [to_value, hw1]; rfl, by simp [from_value, hw2]⟩
  | .list vs, h => by
      have h' : representable_list vs = true := by simpa [representable] using h
      obtain ⟨ws, hw1, hw2⟩ := round_trip_list vs h'
      exact ⟨.sequence false ws, by simp [to_value, hw1]; rfl, by simp [from_value, hw2]⟩

/-- Elementwise round-trip over the elements of a tuple or list. -/
theorem round_trip_list : (vs : List PyVal) → representable_list vs = true →
    ∃ ws, to_value_list vs = Except.ok ws ∧ from_value_list ws = vs
  | [], _ => ⟨[], rfl, rfl⟩
  | v :: vs, h => by
      have h' : representable v = true ∧ representable_list vs = true := by
        simpa [representable_list] using h
      obtain ⟨w, hw1, hw2⟩ := round_trip_val v h'.1
      obtain ⟨ws, hws1, hws2⟩ := round_trip_list vs h'.2
      exact ⟨w :: ws, by simp [to_value_list, hw1, hws1]; rfl,
        by simp [from_value_list, hw2, hws2]⟩

/-- Fieldwise round-trip over the fields of a record. -/
theorem round_trip_fields : (fs : List (String × PyVal)) →
    representable_fields fs = true →
    ∃ ws, to_value_fields fs = Except.ok ws ∧ from_value_fields ws = fs
  | [], _ => ⟨[], rfl, rfl⟩
  | (k, v) :: fs, h => by
      have h' : representable v = true ∧ representable_fields fs = true := by
        simpa [representable_fields] using h
      obtain ⟨w, hw1, hw2⟩ := round_trip_val v h'.1
      obtain ⟨ws, hws1, hws2⟩ := round_trip_fields fs h'.2
      exact ⟨(k, w) :: ws, by simp [to_value_fields, hw1, hws1]; rfl,
        by simp [from_value_fields, hw2, hws2]⟩

end

/-- C3: for every representable local value `v` — a boolean, a bit-vector
of width at least 1, or a tuple, string-keyed record, or non-word
sequence of such values — decoding the encoding of `v` yields `v`:
`__from_value (__to_value v) = v`. -/
theorem C3_round_trip (v : PyVal) (h : representable v = true) :
    (to_value v).map from_value = Except.ok v := by
  obtain ⟨w, hw, hv⟩ := round_trip_val v h
  rw [hw]
  simp [Except.map, hv]

/-- Witness for C3 on a concrete nested value mixing a boolean, a width-4
bit-vector, and a record containing a list. -/
theorem C3_witness :
    representable
      (PyVal.tuple [.bool true, .bitvector 4 9,
        .record [("x", PyVal.list [.bool false])]]) = true ∧
    (to_value
        (PyVal.tuple [.bool true, .bitvector 4 9,
          .record [("x", PyVal.list [.bool false])]])).map from_value =
      Except.ok
        (PyVal.tuple [.bool true, .bitvector 4 9,
          .record [("x", PyVal.list [.bool false])]]) :=
  ⟨by decide, C3_round_trip _ (by decide)⟩

/-- Bind of a successful `Except` computation reduces to the
continuation. -/
theorem except_ok_bind {α β : Type} (a : α) (f : α → Except PyExc β) :
    (Except.ok a >>= f) = f a := rfl

/-- Bind of a failed `Except` computation propagates the error. -/
theorem except_error_bind {α β : Type} (e : PyExc) (f : α → Except PyExc β) :
    ((Except.error e : Except PyExc α) >>= f) = Except.error e := rfl

/-- `spec_subst` with no renderings left leaves the template unchanged. -/
theorem spec_subst_nil (t : List Char) : spec_subst t [] = t := by
  induction t with
  | nil => rfl
  | cons c cs ih => by_cases hc : c = '?' <;> simp [spec_subst, hc, ih]

/-- `spec_subst` passes unchanged over a hole-free prefix. -/
theorem spec_subst_append (s u : List Char) (rs : List String) (hs : '?' ∉ s) :
    spec_subst (s ++ u) rs = s ++ spec_subst u rs := by
  induction s with
  | nil => rfl
  | cons c cs ih =>
      have hc : ¬ c = '?' := fun hc => hs (by simp [hc])
      have h' : '?' ∉ cs := fun hm => hs (List.mem_cons_of_mem _ hm)
      simp [spec_subst, hc, ih h']

/-- `spec_subst` consumes a leading hole together with the first
rendering. -/
theorem spec_subst_hole (t2 : List Char) (r : String) (rs : List String) :
    spec_subst ('?' :: t2) (r :: rs) = r.data ++ spec_subst t2 rs := by
  simp [spec_subst]

/-- A list with at least one `'?'` splits at its first `'?'`. -/
theorem exists_first_hole (t : List Char) (h : 0 < t.count '?') :
    ∃ t1 t2, t = t1 ++ '?' :: t2 ∧ '?' ∉ t1 := by
  induction t with
  | nil => simp at h
  | cons c cs ih =>
      by_cases hc : c = '?'
      · exact ⟨[], cs, by simp [hc], by simp⟩
      · have h' : 0 < cs.count '?' := by
          rw [List.count_cons] at h
          simpa [hc] using h
        obtain ⟨t1, t2, ht, hmem⟩ := ih h'
        refine ⟨c :: t1, t2, by simp [ht], ?_⟩
        simp only [List.mem_cons, not_or]
        exact ⟨fun hcc => hc hcc.symm, hmem⟩

/-- Single-occurrence replacement substitutes exactly at the first hole. -/
theorem replaceFirstAux_split (t1 t2 r : List Char) (h : '?' ∉ t1) :
    replaceFirstAux (t1 ++ '?' :: t2) '?' r = t1 ++ (r ++ t2) := by
  induction t1 with
  | nil => simp [replaceFirstAux]
  | cons c cs ih =>
      have hc : ¬ c = '?' := fun hc => h (by simp [hc])
      have h' : '?' ∉ cs := fun hm => h (List.mem_cons_of_mem _ hm)
      simp [replaceFirstAux, hc, ih h']

/-- The replacement fold of `template`, on arguments whose renderings
exist and are hole-free, computes the in-order substitution
`spec_subst`. -/
theorem template_fold (args : List PyVal) (rs : List String) (s : String)
    (h1 : to_expr_list args = Except.ok rs)
    (h2 : ∀ r ∈ rs, '?' ∉ r.data)
    (h3 : s.data.count '?' = args.length) :
    args.foldlM (fun result arg => do
      let e ← to_expr arg
      pure (string_replace_first result '?' e)) s =
      Except.ok (String.mk (spec_subst s.data rs)) := by
  induction args generalizing rs s with
  | nil =>
      have hrs : rs = [] := by
        simp only [to_expr_list, Except.ok.injEq] at h1
        exact h1.symm
      subst hrs
      rw [spec_subst_nil]
      rfl
  | cons a args ih =>
      cases ha : to_expr a with
      | error e => simp [to_expr_list, ha, except_error_bind] at h1
      | ok r =>
          cases hb : to_expr_list args with
          | error e => simp [to_expr_list, ha, hb, except_ok_bind, except_error_bind] at h1
          | ok rs' =>
              have hrs : rs = r :: rs' := by
                simp only [to_expr_list, ha, hb, except_ok_bind,
                  Except.ok.injEq] at h1
                exact h1.symm
              subst hrs
              have hpos : 0 < s.data.count '?' := by
                rw [h3]
                simp
              obtain ⟨t1, t2, hsplit, ht1⟩ := exists_first_hole s.data hpos
              have hr : '?' ∉ r.data := h2 r (List.mem_cons_self r _)
              have h2' : ∀ x ∈ rs', '?' ∉ x.data :=
                fun x hx => h2 x (List.mem_cons_of_mem _ hx)
              have hrepl : (string_replace_first s '?' r).data =
                  t1 ++ (r.data ++ t2) := by
                simp [string_replace_first, hsplit,
                  replaceFirstAux_split t1 t2 r.data ht1]
              have hcount : (string_replace_first s '?' r).data.count '?' =
                  args.length := by
                simp only [List.length_cons] at h3
                have hs : s.data.count '?' = t2.count '?' + 1 := by
                  rw [hsplit, List.count_append, List.count_eq_zero.mpr ht1,
                    List.count_cons]
                  simp
                rw [hrepl, List.count_append, List.count_append,
                  List.count_eq_zero.mpr ht1, List.count_eq_zero.mpr hr]
                omega
              have hstep := ih rs' (string_replace_first s '?' r) hb h2' hcount
              have hspec : spec_subst s.data (r :: rs') =
                  t1 ++ (r.data ++ spec_subst t2 rs') := by
                rw [hsplit, spec_subst_append t1 _ _ ht1, spec_subst_hole]
              have hspec2 : spec_subst (string_replace_first s '?' r).data rs' =
                  t1 ++ (r.data ++ spec_subst t2 rs') := by
                rw [hrepl, spec_subst_append t1 _ _ ht1,
                  spec_subst_append r.data _ _ hr]
              rw [hspec2] at hstep
              have hfold : (a :: args).foldlM (fun result arg => do
                    let e ← to_expr arg
                    pure (string_replace_first result '?' e)) s =
                  args.foldlM (fun result arg => do
                    let e ← to_expr arg
                    pure (string_replace_first result '?' e))
                    (string_replace_first s '?' r) := by
                show ((do
                    let e ← to_expr a
                    pure (string_replace_first s '?' e) : Except PyExc String) >>=
                  fun b => args.foldlM (fun result arg => do
                    let e ← to_expr arg
                    pure (string_replace_first result '?' e)) b) = _
                rw [ha]
                rfl
              rw [hfold, hstep, hspec]

/-- `template` applied to an explicit tuple of arguments, written out as
its arity checks followed by the replacement fold. -/
theorem template_tuple_eq (t : String) (args : List PyVal) :
    template t (.tuple args) =
      (if args.length < t.data.count '?' then
        Except.error
          (.typeError "not all arguments converted during Cryptol string templating")
      else if args.length > t.data.count '?' then
        Except.error (.typeError "not enough arguments for Cryptol template string")
      else
        args.foldlM (fun result arg => do
          let e ← to_expr arg
          pure (string_replace_first result '?' e)) t) := rfl

/-- C7 is false in its "each placeholder is replaced in order by the
rendering of the corresponding argument" part: replacement is sequential,
first occurrence each time, so a `?` occurring inside an earlier
argument's rendering (here the record key `a?`) is consumed by the next
replacement.  On the template `"? ?"` with arguments
`({'a?': True}, False)` the placeholder/argument counts agree, yet the
code produces `"{aFalse = True} ?"` while in-order replacement of the
original placeholders would give `"{a? = True} False"`. -/
theorem C7_counterexample :
    template "? ?" (.tuple [.record [("a?", .bool true)], .bool false]) =
      Except.ok "\x7baFalse = True\x7d ?" ∧
    to_expr_list [.record [("a?", .bool true)], .bool false] =
      Except.ok ["\x7ba? = True\x7d", "False"] ∧
    String.mk (spec_subst ("? ?").data ["\x7ba? = True\x7d", "False"]) =
      "\x7ba? = True\x7d False" ∧
    ("\x7baFalse = True\x7d ?" : String) ≠ "\x7ba? = True\x7d False" :=
  ⟨rfl, rfl, rfl, by decide⟩

/-- C7 amended: whenever the number of arguments differs from the number
of `?` placeholders (in either direction), `template` fails with one of
the two arity `TypeError`s, and `__tag_expr` therefore fails before any
request message is formed; when the counts agree, every argument has a
rendering, and no rendering itself contains a `?`, each placeholder is
replaced in order by the rendering of the corresponding argument. -/
theorem C7_template_amended (t : String) (args : List PyVal) :
    (args.length ≠ t.data.count '?' →
      ∃ msg, template t (.tuple args) = Except.error (.typeError msg) ∧
        (msg = "not all arguments converted during Cryptol string templating" ∨
         msg = "not enough arguments for Cryptol template string") ∧
        ∀ tag, tag_expr_request tag t (.tuple args) =
          Except.error (.typeError msg)) ∧
    (∀ rs, args.length = t.data.count '?' →
      to_expr_list args = Except.ok rs →
      (∀ r ∈ rs, '?' ∉ r.data) →
      template t (.tuple args) = Except.ok (String.mk (spec_subst t.data rs))) := by
  constructor
  · intro hne
    have key : ∀ msg, template t (.tuple args) = Except.error (.typeError msg) →
        ∀ tag, tag_expr_request tag t (.tuple args) =
          Except.error (.typeError msg) := by
      intro msg hmsg tag
      unfold tag_expr_request
      rw [hmsg]
      rfl
    rcases Nat.lt_or_ge args.length (t.data.count '?') with hlt | hge
    · have hmsg : template t (.tuple args) =
          Except.error
            (.typeError "not all arguments converted during Cryptol string templating") := by
        rw [template_tuple_eq, if_pos hlt]
      exact ⟨_, hmsg, Or.inl rfl, key _ hmsg⟩
    · have hgt : args.length > t.data.count '?' :=
        lt_of_le_of_ne hge (Ne.symm hne)
      have hmsg : template t (.tuple args) =
          Except.error (.typeError "not enough arguments for Cryptol template string") := by
        rw [template_tuple_eq, if_neg (by omega), if_pos hgt]
      exact ⟨_, hmsg, Or.inr rfl, key _ hmsg⟩
  · intro rs hlen h1 h2
    rw [template_tuple_eq, if_neg (by omega), if_neg (by omega)]
    exact template_fold args rs t h1 h2 (by omega)

/-- Witness for C7 (amended): an arity mismatch (`"?"` with no arguments)
fails before any request, and `"? + ?"` with a bit-vector and a boolean
substitutes in order. -/
theorem C7_witness :
    (∃ msg, template "?" (.tuple []) = Except.error (.typeError msg) ∧
      (msg = "not all arguments converted during Cryptol string templating" ∨
       msg = "not enough arguments for Cryptol template string") ∧
      ∀ tag, tag_expr_request tag "?" (.tuple []) =
        Except.error (.typeError msg)) ∧
    template "? + ?" (.tuple [.bitvector 4 3, .bool true]) =
      Except.ok (String.mk (spec_subst ("? + ?").data ["3 : [4]", "True"])) :=
  ⟨(C7_template_amended "?" []).1 (by decide),
   (C7_template_amended "? + ?" [.bitvector 4 3, .bool true]).2
     ["3 : [4]", "True"] (by decide) rfl (by decide)⟩

end Pycryptol
